import Mathlib

/-!
Shallow embedding of the image-anonymizer redaction pipeline.

Sources embedded:
* `src/ocr/masking.rs`   — sensitivity classifier, text-region rectangle and solid fill
* `src/face/masking.rs`  — face-region rectangle and block-average pixelation
* `src/ocr/gemini.rs`    — parsing of the semantic classifier's answer
* `src/lib.rs`           — comma-splitting of the caller-supplied mask list

Modelling conventions:
* Rust `u32`/`usize` quantities are `Nat`.  All arithmetic the embedded code performs
  stays far below `2^32` (channel sums are over at most 16×16 pixels of values ≤ 255),
  so no modular reduction is needed; `u32` subtraction written with `saturating_sub`
  is `Nat` subtraction.  Plain `u32` subtraction (`width - 1`, face masking's
  `max_x - min_x`) is also modelled by `Nat` subtraction; this is exact whenever the
  minuend is not smaller, which every theorem below either assumes or proves.
* Rust `i32` vertex coordinates are `Int`; `as u32` after `.max(0)` is `Int.toNat`.
* Strings are `List Char`; `str::len` (a byte count) is `utf8Len`, using `Char.utf8Size`.
  `char::is_alphanumeric` / `char::is_numeric` are modelled by `Char.isAlphanum` /
  `Char.isDigit`, which agree with Rust on ASCII text.
* The image buffer is a structure with dimensions and a pixel map; `put_pixel` is a
  functional update.
* The call to the external Gemini classifier inside `is_sensitive_text` is an oracle
  parameter: `some b` models `Ok(b)`, `none` models `Err(_)`.
-/

namespace ImgAnon

/-- RGBA pixel; `u8` channels modelled as `Nat`. -/
structure Rgba where
  r : Nat
  g : Nat
  b : Nat
  a : Nat
deriving DecidableEq

/-- The RGBA image buffer (`image::DynamicImage`): dimensions plus a pixel map. -/
structure Image where
  width : Nat
  height : Nat
  pix : Nat → Nat → Rgba

/-- `Vertex` from `src/ocr/detection.rs` / `src/face/detection.rs`: `i32` coordinates
(possibly negative or out of bounds, as delivered by the detector). -/
structure Vertex where
  x : Int
  y : Int
deriving DecidableEq

/-- `BoundingPoly`: ordered vertex list; may be empty. -/
structure BoundingPoly where
  vertices : List Vertex
deriving DecidableEq

/-- `TextAnnotation` from `src/ocr/detection.rs` (name shortened for the embedding):
detected text plus optional bounding polygon. -/
structure TextAnn where
  description : List Char
  bounding_poly : Option BoundingPoly

/-- `FaceAnnotation` from `src/face/detection.rs` (name shortened).  Its `landmarks`
and `detection_confidence` fields are never read by `mask_faces` and are omitted. -/
structure FaceAnn where
  bounding_poly : Option BoundingPoly

/-- `image::DynamicImage::put_pixel` as a functional update. -/
def put_pixel (img : Image) (x y : Nat) (c : Rgba) : Image :=
  { img with pix := fun u v => if u = x ∧ v = y then c else img.pix u v }

/-- A Rust `for i in a..(a+n)` loop over state `σ`, recursing on the iteration count. -/
def loop {σ : Type} (f : Nat → σ → σ) : Nat → Nat → σ → σ
  | _, 0, s => s
  | a, n + 1, s => loop f (a + 1) n (f a s)

/-- A Rust `for i in a..b` loop (empty when `b ≤ a`, as in Rust). -/
def forRange {σ : Type} (a b : Nat) (f : Nat → σ → σ) (s : σ) : σ :=
  loop f a (b - a) s

/-- `Iterator::min` over the mapped vertex coordinates (`None` on an empty iterator). -/
def iterMin : List Int → Option Int
  | [] => none
  | x :: xs =>
    some (match iterMin xs with
      | none => x
      | some m => min x m)

/-- `Iterator::max` over the mapped vertex coordinates. -/
def iterMax : List Int → Option Int
  | [] => none
  | x :: xs =>
    some (match iterMax xs with
      | none => x
      | some m => max x m)

/-- The derived redaction rectangle (pixel coordinates). -/
structure Rect where
  min_x : Nat
  min_y : Nat
  max_x : Nat
  max_y : Nat
deriving DecidableEq

/-- The rectangle computation shared verbatim by `mask_annotation`
(`src/ocr/masking.rs:184-192`) and `mask_faces` (`src/face/masking.rs:41-50`):
per-axis minima and maxima over the vertices, clamped below at 0 and cast to `u32`,
with the maxima further clamped above at `width - 1` / `height - 1`.
The minima are NOT clamped above (the source has no such line). -/
def clampedRect (vertices : List Vertex) (width height : Nat) : Rect :=
  { min_x := (max ((iterMin (vertices.map Vertex.x)).getD 0) 0).toNat
  , min_y := (max ((iterMin (vertices.map Vertex.y)).getD 0) 0).toNat
  , max_x := Nat.min ((max ((iterMax (vertices.map Vertex.x)).getD 0) 0).toNat) (width - 1)
  , max_y := Nat.min ((max ((iterMax (vertices.map Vertex.y)).getD 0) 0).toNat) (height - 1) }

/-- `mask_annotation` from `src/ocr/masking.rs` (name shortened): solid-fills the
clamped rectangle with RGBA(0,0,0,128) unless the polygon is empty or the box is
oversized.  The source's `Result<()>` is always `Ok`; the model returns the new image. -/
def mask_ann (img : Image) (ann : TextAnn) : Image :=
  let vertices := (ann.bounding_poly.getD ⟨[]⟩).vertices
  if vertices.isEmpty then img
  else
    let width := img.width
    let height := img.height
    let r := clampedRect vertices width height
    let box_width := r.max_x - r.min_x
    let box_height := r.max_y - r.min_y
    if box_width > width / 2 ∨ box_height > height / 2 then img
    else
      let black : Rgba := ⟨0, 0, 0, 128⟩
      forRange r.min_y (r.max_y + 1) (fun y im =>
        forRange r.min_x (r.max_x + 1) (fun x im2 =>
          if x < width ∧ y < height then put_pixel im2 x y black else im2) im) img

/-- `str::len` — the UTF-8 byte length of the text. -/
def utf8Len (s : List Char) : Nat := (s.map Char.utf8Size).sum

/-- Rust `char::is_alphanumeric`; modelled by `Char.isAlphanum`, which agrees on ASCII. -/
def rust_is_alphanumeric (c : Char) : Bool := c.isAlphanum

/-- Rust `char::is_numeric`; modelled by `Char.isDigit`, which agrees on ASCII. -/
def rust_is_numeric (c : Char) : Bool := c.isDigit

/-- `str::starts_with` on character lists (helper for substring containment). -/
def hasPrefixChars : List Char → List Char → Bool
  | _, [] => true
  | [], _ :: _ => false
  | c :: cs, p :: ps => c == p && hasPrefixChars cs ps

/-- Rust `str::contains(pat)` — `containsSub text pat` holds iff `pat` occurs as a
contiguous substring of `text`; the empty pattern always matches, as in Rust. -/
def containsSub : List Char → List Char → Bool
  | [], pat => pat.isEmpty
  | c :: rest, pat => hasPrefixChars (c :: rest) pat || containsSub rest pat

/-- `SensitiveTextCriteria` from `src/ocr/masking.rs:11-19`. -/
structure SensitiveTextCriteria where
  api_keys : Bool
  emails : Bool
  phone_numbers : Bool
  credit_cards : Bool
  personal_names : Bool
  company_names : Bool
deriving DecidableEq

/-- `impl Default for SensitiveTextCriteria`: every toggle on. -/
def SensitiveTextCriteria.default : SensitiveTextCriteria :=
  ⟨true, true, true, true, true, true⟩

/-- Character class of the API-key heuristic: alphanumeric or `_`, `.`, `@`. -/
def apiKeyChar (c : Char) : Bool :=
  rust_is_alphanumeric c || c == '_' || c == '.' || c == '@'

/-- `is_sensitive_text` from `src/ocr/masking.rs:56-103`, instrumented.  The Gemini
call is the oracle argument (`some b` models `Ok(b)`, `none` models `Err(_)`); the
second component of the result records whether the source reaches the
`analyze_text_sensitivity` call at all. -/
def is_sensitive_text_instr (text : List Char) (criteria : SensitiveTextCriteria)
    (additional_texts : List (List Char)) (gemini : Option Bool) : Bool × Bool :=
  if additional_texts.any (fun t => containsSub text t) then (true, false)
  else if utf8Len text < 3 then (false, false)
  else if criteria.api_keys = true ∧ utf8Len text > 20 ∧ text.all apiKeyChar = true then
    (true, false)
  else
    match gemini with
    | some is_sensitive => (is_sensitive, true)
    | none =>
      (text.contains '@' || text.contains '-' ||
        decide ((text.filter (fun c => rust_is_numeric c)).length > 8), true)

/-- `is_sensitive_text`'s observable boolean answer. -/
def is_sensitive_text (text : List Char) (criteria : SensitiveTextCriteria)
    (additional_texts : List (List Char)) (gemini : Option Bool) : Bool :=
  (is_sensitive_text_instr text criteria additional_texts gemini).1

/-- `str::trim`: drop whitespace from both ends (`Char.isWhitespace` matches Rust on
the ASCII whitespace the answers contain). -/
def trimChars (s : List Char) : List Char :=
  ((s.dropWhile Char.isWhitespace).reverse.dropWhile Char.isWhitespace).reverse

/-- `str::to_lowercase`, charwise (`Char.toLower` agrees with Rust on ASCII). -/
def lowerChars (s : List Char) : List Char := s.map Char.toLower

/-- `CandidatePart` of the Gemini response (`src/ocr/gemini.rs:47-50`). -/
structure CandidatePart where
  text : List Char

/-- `CandidateContent` of the Gemini response. -/
structure CandidateContent where
  parts : List CandidatePart

/-- `Candidate` of the Gemini response. -/
structure Candidate where
  content : CandidateContent

/-- `GeminiResponse`: the decoded response body. -/
structure GeminiResponse where
  candidates : List Candidate

/-- Failure cases of the answer-interpretation tail of `analyze_text_sensitivity`. -/
inductive GeminiError where
  | noCandidates
deriving DecidableEq

/-- `result_text` in `analyze_text_sensitivity` (`src/ocr/gemini.rs:134-139`): the
candidate's first part, trimmed and lowercased, defaulting to the empty string when
the candidate has no parts (`unwrap_or_default`). -/
def resultTextOf (candidate : Candidate) : List Char :=
  ((candidate.content.parts.head?).map (fun part => lowerChars (trimChars part.text))).getD []

/-- The answer-interpretation tail of `analyze_text_sensitivity`
(`src/ocr/gemini.rs:129-157`), starting from the decoded response body: an empty
candidate list is an error; otherwise the normalized answer `"true"` / `"false"` maps
to `Ok(true)` / `Ok(false)`, and any other answer to `Ok(true)`.  The transport and
JSON-decode steps before this point can only fail, never alter the answer value. -/
def analyze_sensitivity_answer (response_body : GeminiResponse) : Except GeminiError Bool :=
  match response_body.candidates with
  | [] => Except.error GeminiError.noCandidates
  | candidate :: _ =>
    let result_text := resultTextOf candidate
    if result_text = "true".toList then Except.ok true
    else if result_text = "false".toList then Except.ok false
    else Except.ok true

/-- The `additional_masks` construction in `process_image` (`src/lib.rs:46-53`):
split the caller's comma-separated string on `,` and trim each piece; `None` yields
the empty list. -/
def parse_additional_masks (mask_texts : Option (List Char)) : List (List Char) :=
  match mask_texts with
  | some texts => (texts.splitOn ',').map trimChars
  | none => []

/-- `mask_text` from `src/ocr/masking.rs:120-155`: drop the first annotation when
there are several, classify the rest (the source's `par_iter().filter(..)` is a pure
filter, so the parallel fan-out has the same result as this sequential filter), then
apply `mask_annotation` sequentially to the ones classified sensitive.  The second
component is `masked_count`, the count the source logs as masked regions.  The oracle
`gemini` gives the outcome of the Gemini call for each description. -/
def mask_text (img : Image) (annotations : List TextAnn)
    (additional_masks : List (List Char)) (gemini : List Char → Option Bool) : Image × Nat :=
  let criteria := SensitiveTextCriteria.default
  let annotations_to_process :=
    if annotations.length > 1 then annotations.drop 1 else annotations
  let sensitive_annotations := annotations_to_process.filter
    (fun a => is_sensitive_text a.description criteria additional_masks (gemini a.description))
  let masked_count := sensitive_annotations.length
  (sensitive_annotations.foldl mask_ann img, masked_count)

/-- A 4×4 grey image (used by the C8 witness). -/
def c8Img : Image := ⟨4, 4, fun _ _ => ⟨9, 9, 9, 9⟩⟩

/-- A summary-like first annotation (used by the C8 witness). -/
def c8AnnA : TextAnn := ⟨"IMG".toList, none⟩

/-- A second annotation (used by the C8 witness). -/
def c8AnnB : TextAnn := ⟨"b".toList, none⟩

/-- A 10×10 all-white image (used by the C9 counterexample). -/
def c9Img : Image := ⟨10, 10, fun _ _ => ⟨255, 255, 255, 255⟩⟩

/-- A sensitive annotation (matches the explicit term `@`) with an empty bounding
polygon (used by the C9 counterexample). -/
def c9Ann : TextAnn := ⟨"test@example.com".toList, some ⟨[]⟩⟩

/-- The fixed mosaic block size of `mask_faces` (`src/face/masking.rs:24`). -/
def pixel_size : Nat := 16

/-- The per-block channel sums and pixel count of `mask_faces`
(`src/face/masking.rs:66-83`).  The sums are `u32` in the source; over at most 16×16
pixels of `u8` channels they stay far below `2^32`, so `Nat` is exact. -/
structure BlockSums where
  r_sum : Nat
  g_sum : Nat
  b_sum : Nat
  a_sum : Nat
  pixel_count : Nat
deriving DecidableEq

/-- The summation loops of one mosaic block (`src/face/masking.rs:72-83`): add up the
channels of every in-bounds pixel of the half-open region `[x0, x1) × [y0, y1)`. -/
def blockSums (img : Image) (width height x0 y0 x1 y1 : Nat) : BlockSums :=
  forRange y0 y1 (fun y s =>
    forRange x0 x1 (fun x s2 =>
      if x < width ∧ y < height then
        ⟨s2.r_sum + (img.pix x y).r, s2.g_sum + (img.pix x y).g,
         s2.b_sum + (img.pix x y).b, s2.a_sum + (img.pix x y).a, s2.pixel_count + 1⟩
      else s2) s) ⟨0, 0, 0, 0, 0⟩

/-- The averaged block color (`src/face/masking.rs:86-91`): each channel is the
truncated `u32` quotient of its sum by the pixel count.  The `as u8` casts are
lossless because a mean of `u8` values is at most 255. -/
def block_average (img : Image) (width height x0 y0 x1 y1 : Nat) : Rgba :=
  let s := blockSums img width height x0 y0 x1 y1
  ⟨s.r_sum / s.pixel_count, s.g_sum / s.pixel_count,
   s.b_sum / s.pixel_count, s.a_sum / s.pixel_count⟩

/-- The fill loops of one mosaic block (`src/face/masking.rs:94-100`): overwrite every
in-bounds pixel of `[x0, x1) × [y0, y1)` with `c`. -/
def fillBlock (width height x0 y0 x1 y1 : Nat) (c : Rgba) (img : Image) : Image :=
  forRange y0 y1 (fun y im =>
    forRange x0 x1 (fun x im2 =>
      if x < width ∧ y < height then put_pixel im2 x y c else im2) im) img

/-- One mosaic block of `mask_faces` (`src/face/masking.rs:57-102`): compute the block
boundaries, average the current image over the block, and — when at least one pixel
was counted — fill the block with the averaged color. -/
def processBlock (width height : Nat) (r : Rect) (block_x block_y : Nat) (img : Image) : Image :=
  let block_start_x := r.min_x + block_x * pixel_size
  let block_start_y := r.min_y + block_y * pixel_size
  let block_end_x := Nat.min (block_start_x + pixel_size) r.max_x
  let block_end_y := Nat.min (block_start_y + pixel_size) r.max_y
  if (blockSums img width height block_start_x block_start_y block_end_x block_end_y).pixel_count
      > 0 then
    fillBlock width height block_start_x block_start_y block_end_x block_end_y
      (block_average img width height block_start_x block_start_y block_end_x block_end_y) img
  else img

/-- The per-face body of `mask_faces` (`src/face/masking.rs:31-104`): skip an absent or
empty polygon, derive the clamped rectangle, and run the mosaic block loops.  The
source's `(max_x - min_x) / pixel_size` is plain `u32` arithmetic; `Nat` subtraction
models it exactly whenever `min_x ≤ max_x` (when every vertex coordinate is at or
beyond the image size the Rust subtraction would overflow instead — see claim C1). -/
def mask_face_ann (img : Image) (ann : FaceAnn) : Image :=
  match ann.bounding_poly with
  | none => img
  | some bounding_poly =>
    let vertices := bounding_poly.vertices
    if vertices.isEmpty then img
    else
      let width := img.width
      let height := img.height
      let r := clampedRect vertices width height
      let blocks_x := Nat.max ((r.max_x - r.min_x) / pixel_size) 1
      let blocks_y := Nat.max ((r.max_y - r.min_y) / pixel_size) 1
      forRange 0 blocks_y (fun block_y im =>
        forRange 0 blocks_x (fun block_x im2 =>
          processBlock width height r block_x block_y im2) im) img

/-- `mask_faces` from `src/face/masking.rs:22-109`: the per-face body folded over the
annotation list.  The `Result<()>` is always `Ok`; the model returns the new image. -/
def mask_faces (img : Image) (face_annotations : List FaceAnn) : Image :=
  face_annotations.foldl mask_face_ann img

/-- Modelled from the claim's words (C2): the color whose R, G, B, A channels are the
integer-truncated arithmetic means of the corresponding channels over all in-bounds
pixels of the INCLUSIVE rectangle `[min_x, max_x] × [min_y, max_y]`. -/
def specInclusiveMean (img : Image) (r : Rect) : Rgba :=
  let pts := ((List.range' r.min_y (r.max_y + 1 - r.min_y)).flatMap (fun y =>
    (List.range' r.min_x (r.max_x + 1 - r.min_x)).map (fun x => (x, y)))).filter
    (fun p => decide (p.1 < img.width ∧ p.2 < img.height))
  let n := pts.length
  ⟨(pts.map (fun p => (img.pix p.1 p.2).r)).sum / n,
   (pts.map (fun p => (img.pix p.1 p.2).g)).sum / n,
   (pts.map (fun p => (img.pix p.1 p.2).b)).sum / n,
   (pts.map (fun p => (img.pix p.1 p.2).a)).sum / n⟩

/-- A 2×1 image with two distinct pixels (used by the C2 counterexample and witness). -/
def c2Img : Image :=
  ⟨2, 1, fun x _ => if x = 0 then ⟨10, 20, 30, 255⟩ else ⟨30, 40, 50, 255⟩⟩

/-- The face polygon (0,0)-(1,0) on `c2Img` (used by the C2 counterexample and
witness); its clamped rectangle is one block wide and tall. -/
def c2Poly : BoundingPoly := ⟨[⟨0, 0⟩, ⟨1, 0⟩]⟩

theorem iterMin_eq_none {l : List Int} : iterMin l = none ↔ l = [] := by
  cases l <;> simp [iterMin]

theorem iterMax_eq_none {l : List Int} : iterMax l = none ↔ l = [] := by
  cases l <;> simp [iterMax]

theorem iterMin_le_of_mem : ∀ {l : List Int} {v m : Int}, v ∈ l → iterMin l = some m → m ≤ v := by
  intro l
  induction l with
  | nil => intro v m hv _; cases hv
  | cons x xs ih =>
    intro v m hv hm
    simp only [iterMin] at hm
    cases hxs : iterMin xs with
    | none =>
      have hempty : xs = [] := iterMin_eq_none.mp hxs
      subst hempty
      simp only [iterMin] at hm
      rcases List.mem_cons.mp hv with h | h
      · subst h; simp only [Option.some.injEq] at hm; omega
      · cases h
    | some m' =>
      rw [hxs] at hm
      simp only [Option.some.injEq] at hm
      rcases List.mem_cons.mp hv with h | h
      · subst h; subst hm; exact min_le_left _ _
      · have := ih h hxs
        subst hm
        exact le_trans (min_le_right _ _) this

theorem le_iterMax_of_mem : ∀ {l : List Int} {v M : Int}, v ∈ l → iterMax l = some M → v ≤ M := by
  intro l
  induction l with
  | nil => intro v M hv _; cases hv
  | cons x xs ih =>
    intro v M hv hM
    simp only [iterMax] at hM
    cases hxs : iterMax xs with
    | none =>
      have hempty : xs = [] := iterMax_eq_none.mp hxs
      subst hempty
      simp only [iterMax] at hM
      rcases List.mem_cons.mp hv with h | h
      · subst h; simp only [Option.some.injEq] at hM; omega
      · cases h
    | some M' =>
      rw [hxs] at hM
      simp only [Option.some.injEq] at hM
      rcases List.mem_cons.mp hv with h | h
      · subst h; subst hM; exact le_max_left _ _
      · have := ih h hxs
        subst hM
        exact le_trans this (le_max_right _ _)

theorem iterMin_mem : ∀ {l : List Int} {m : Int}, iterMin l = some m → m ∈ l := by
  intro l
  induction l with
  | nil => intro m h; cases h
  | cons x xs ih =>
    intro m hm
    simp only [iterMin] at hm
    cases hxs : iterMin xs with
    | none =>
      rw [hxs] at hm
      simp only [Option.some.injEq] at hm
      subst hm; exact List.mem_cons_self _ _
    | some m' =>
      rw [hxs] at hm
      simp only [Option.some.injEq] at hm
      subst hm
      rcases min_cases x m' with ⟨h, _⟩ | ⟨h, _⟩
      · rw [h]; exact List.mem_cons_self _ _
      · rw [h]; exact List.mem_cons_of_mem _ (ih hxs)

/-- One-axis clamping bound used for both coordinates of claim C1. -/
theorem clampAxis_le (l : List Int) (n : Nat) (hne : l ≠ []) (hn : 0 < n)
    (hv : ∃ v ∈ l, v ≤ (n : Int) - 1) :
    (max ((iterMin l).getD 0) 0).toNat ≤
      Nat.min ((max ((iterMax l).getD 0) 0).toNat) (n - 1) := by
  obtain ⟨x, xs, rfl⟩ := List.exists_cons_of_ne_nil hne
  obtain ⟨m, hm⟩ : ∃ m, iterMin (x :: xs) = some m := ⟨_, rfl⟩
  obtain ⟨M, hM⟩ : ∃ M, iterMax (x :: xs) = some M := ⟨_, rfl⟩
  have hmM : m ≤ M := le_iterMax_of_mem (iterMin_mem hm) hM
  obtain ⟨v, hvmem, hvle⟩ := hv
  have hmv : m ≤ v := iterMin_le_of_mem hvmem hm
  rw [hm, hM]
  simp only [Option.getD_some]
  have h1 : max m 0 ≤ max M 0 := max_le_max hmM le_rfl
  have h2 : max m 0 ≤ (n : Int) - 1 := by
    have : (0 : Int) ≤ (n : Int) - 1 := by omega
    exact max_le (by omega) this
  have h0 : (0 : Int) ≤ max m 0 := le_max_right _ _
  refine Nat.le_min.mpr ⟨?_, ?_⟩ <;> omega

/-- Claim C1 (amended): for a non-empty polygon on an image of positive dimensions,
the derived rectangle always satisfies `max_x ≤ width - 1` and `max_y ≤ height - 1`
(minima are `Nat`, hence ≥ 0); and `min_x ≤ max_x` (resp. `min_y ≤ max_y`) holds
provided at least one vertex has `x ≤ width - 1` (resp. `y ≤ height - 1`).  Without
that proviso the chain can fail, because the source never clamps the minima above. -/
theorem c1_rect_bounds (vertices : List Vertex) (width height : Nat)
    (hne : vertices ≠ []) (hw : 0 < width) (hh : 0 < height)
    (hx : ∃ v ∈ vertices, v.x ≤ (width : Int) - 1)
    (hy : ∃ v ∈ vertices, v.y ≤ (height : Int) - 1) :
    (clampedRect vertices width height).min_x ≤ (clampedRect vertices width height).max_x ∧
    (clampedRect vertices width height).max_x ≤ width - 1 ∧
    (clampedRect vertices width height).min_y ≤ (clampedRect vertices width height).max_y ∧
    (clampedRect vertices width height).max_y ≤ height - 1 := by
  have hmapx : vertices.map Vertex.x ≠ [] := by
    simpa using hne
  have hmapy : vertices.map Vertex.y ≠ [] := by
    simpa using hne
  have hvx : ∃ v ∈ vertices.map Vertex.x, v ≤ (width : Int) - 1 := by
    obtain ⟨v, hv, hle⟩ := hx
    exact ⟨v.x, List.mem_map_of_mem _ hv, hle⟩
  have hvy : ∃ v ∈ vertices.map Vertex.y, v ≤ (height : Int) - 1 := by
    obtain ⟨v, hv, hle⟩ := hy
    exact ⟨v.y, List.mem_map_of_mem _ hv, hle⟩
  refine ⟨clampAxis_le _ _ hmapx hw hvx, Nat.min_le_right _ _,
    clampAxis_le _ _ hmapy hh hvy, Nat.min_le_right _ _⟩

/-- Witness for C1 at a concrete input: vertices (-5,3) and (12,20) on a 10×10 image. -/
theorem c1_rect_bounds_witness :
    (clampedRect [⟨-5, 3⟩, ⟨12, 20⟩] 10 10).min_x ≤ (clampedRect [⟨-5, 3⟩, ⟨12, 20⟩] 10 10).max_x ∧
    (clampedRect [⟨-5, 3⟩, ⟨12, 20⟩] 10 10).max_x ≤ 10 - 1 ∧
    (clampedRect [⟨-5, 3⟩, ⟨12, 20⟩] 10 10).min_y ≤ (clampedRect [⟨-5, 3⟩, ⟨12, 20⟩] 10 10).max_y ∧
    (clampedRect [⟨-5, 3⟩, ⟨12, 20⟩] 10 10).max_y ≤ 10 - 1 :=
  c1_rect_bounds [⟨-5, 3⟩, ⟨12, 20⟩] 10 10 (by decide) (by decide) (by decide)
    ⟨⟨-5, 3⟩, by decide⟩ ⟨⟨-5, 3⟩, by decide⟩

/-- Counterexample to C1 as stated: the single vertex (10,5) on a 10×10 image (its
x-coordinate at the image width) yields `min_x = 10 > 9 = max_x` — the claimed chain
`0 ≤ min_x ≤ max_x ≤ width-1` fails because the source never clamps `min_x` above. -/
theorem c1_counterexample :
    ¬ ((clampedRect [⟨10, 5⟩] 10 10).min_x ≤ (clampedRect [⟨10, 5⟩] 10 10).max_x) := by
  decide

theorem containsSub_nil_right (text : List Char) : containsSub text [] = true := by
  cases text <;> rfl

/-- Claim C4 (confirmed): when the Gemini call fails (`none`) and the text matches no
explicit term, has length at least 3, and does not satisfy the API-key heuristic, the
classifier answers sensitive iff the text contains `@`, or contains `-`, or contains
more than 8 numeric characters. -/
theorem c4_fallback_policy (text : List Char) (criteria : SensitiveTextCriteria)
    (additional_texts : List (List Char))
    (hterm : additional_texts.any (fun t => containsSub text t) = false)
    (hlen : ¬ utf8Len text < 3)
    (hapi : ¬ (criteria.api_keys = true ∧ utf8Len text > 20 ∧ text.all apiKeyChar = true)) :
    (is_sensitive_text text criteria additional_texts none = true ↔
      (text.contains '@' = true ∨ text.contains '-' = true ∨
        8 < (text.filter (fun c => rust_is_numeric c)).length)) := by
  unfold is_sensitive_text is_sensitive_text_instr
  rw [hterm]
  simp only [Bool.false_eq_true, if_false, if_neg hlen, if_neg hapi]
  simp [Bool.or_eq_true, decide_eq_true_iff, or_assoc]

/-- Witness for C4: the text `ab-de` (no explicit terms) is classified sensitive by
the fallback because it contains `-`. -/
theorem c4_fallback_policy_witness :
    (is_sensitive_text "ab-de".toList SensitiveTextCriteria.default [] none = true ↔
      ("ab-de".toList.contains '@' = true ∨ "ab-de".toList.contains '-' = true ∨
        8 < ("ab-de".toList.filter (fun c => rust_is_numeric c)).length)) :=
  c4_fallback_policy "ab-de".toList SensitiveTextCriteria.default [] (by decide)
    (by decide) (by decide)

/-- Claim C5 (confirmed): a Gemini response whose normalized answer text is neither
`"true"` nor `"false"` yields a successful result with value `true`; it is neither
raised as an error nor routed to the failure fallback. -/
theorem c5_ambiguous_answer (candidate : Candidate) (rest : List Candidate)
    (h1 : resultTextOf candidate ≠ "true".toList)
    (h2 : resultTextOf candidate ≠ "false".toList) :
    analyze_sensitivity_answer ⟨candidate :: rest⟩ = Except.ok true := by
  unfold analyze_sensitivity_answer
  simp only [if_neg h1, if_neg h2]

/-- Witness for C5: the answer `" Maybe "` (normalizing to `"maybe"`) yields `Ok(true)`. -/
theorem c5_ambiguous_answer_witness :
    analyze_sensitivity_answer ⟨[⟨⟨[⟨" Maybe ".toList⟩]⟩⟩]⟩ = Except.ok true :=
  c5_ambiguous_answer ⟨⟨[⟨" Maybe ".toList⟩]⟩⟩ [] (by decide) (by decide)

/-- Claim C6 (confirmed): an explicit term occurring as a substring of the text forces
the sensitive classification, for every criteria configuration and every Gemini oracle
(the match is decided first, before any other check). -/
theorem c6_explicit_term_dominates (text : List Char) (criteria : SensitiveTextCriteria)
    (additional_texts : List (List Char)) (gemini : Option Bool) (t : List Char)
    (ht : t ∈ additional_texts) (hsub : containsSub text t = true) :
    is_sensitive_text text criteria additional_texts gemini = true := by
  unfold is_sensitive_text is_sensitive_text_instr
  have hany : additional_texts.any (fun u => containsSub text u) = true :=
    List.any_eq_true.mpr ⟨t, ht, hsub⟩
  rw [hany]
  rfl

/-- Witness for C6: the term `@x` inside `a@xy` forces sensitivity even though the
text is short and the oracle answers `false`. -/
theorem c6_explicit_term_dominates_witness :
    is_sensitive_text "a@xy".toList SensitiveTextCriteria.default ["@x".toList]
      (some false) = true :=
  c6_explicit_term_dominates "a@xy".toList SensitiveTextCriteria.default ["@x".toList]
    (some false) "@x".toList (by decide) (by decide)

/-- Claim C7 (confirmed): a text longer than 20 bytes consisting solely of
alphanumerics, `_`, `.`, `@`, with `api_keys` enabled and no explicit-term match, is
classified sensitive, and the Gemini oracle is not consulted (second component
`false`), whatever the oracle would have answered. -/
theorem c7_api_key_heuristic (text : List Char) (criteria : SensitiveTextCriteria)
    (additional_texts : List (List Char)) (gemini : Option Bool)
    (hterm : additional_texts.any (fun t => containsSub text t) = false)
    (hak : criteria.api_keys = true)
    (hlen : 20 < utf8Len text)
    (hchars : text.all apiKeyChar = true) :
    is_sensitive_text_instr text criteria additional_texts gemini = (true, false) := by
  unfold is_sensitive_text_instr
  rw [hterm]
  simp only [Bool.false_eq_true, if_false]
  rw [if_neg (by omega), if_pos ⟨hak, hlen, hchars⟩]

/-- Witness for C7: a 24-character API-key-shaped token is sensitive without
consulting the oracle, even when the oracle would have answered `false`. -/
theorem c7_api_key_heuristic_witness :
    is_sensitive_text_instr "AIzaSyB3X7gtreHx9FGpA_XY".toList
      SensitiveTextCriteria.default [] (some false) = (true, false) :=
  c7_api_key_heuristic "AIzaSyB3X7gtreHx9FGpA_XY".toList SensitiveTextCriteria.default
    [] (some false) (by decide) (by decide) (by decide) (by decide)

/-- Claim C10 (confirmed): if the explicit-terms list contains the empty string, every
text — including the empty string and texts shorter than 3 characters — is classified
sensitive, because the empty pattern is a substring of everything; and the comma-split
of `src/lib.rs` produces such an empty term from a leading, trailing, or doubled
comma. -/
theorem c10_empty_term (text : List Char) (criteria : SensitiveTextCriteria)
    (additional_texts : List (List Char)) (gemini : Option Bool)
    (hmem : [] ∈ additional_texts) :
    is_sensitive_text text criteria additional_texts gemini = true ∧
    [] ∈ parse_additional_masks (some (",secret".toList)) ∧
    [] ∈ parse_additional_masks (some ("secret,".toList)) ∧
    [] ∈ parse_additional_masks (some ("a,,b".toList)) := by
  refine ⟨?_, by decide, by decide, by decide⟩
  unfold is_sensitive_text is_sensitive_text_instr
  have hany : additional_texts.any (fun u => containsSub text u) = true :=
    List.any_eq_true.mpr ⟨[], hmem, containsSub_nil_right text⟩
  rw [hany]
  rfl

/-- Witness for C10: the mask string `,secret` yields an empty term, which makes even
the empty text sensitive. -/
theorem c10_empty_term_witness :
    is_sensitive_text [] SensitiveTextCriteria.default
      (parse_additional_masks (some (",secret".toList))) none = true ∧
    [] ∈ parse_additional_masks (some (",secret".toList)) ∧
    [] ∈ parse_additional_masks (some ("secret,".toList)) ∧
    [] ∈ parse_additional_masks (some ("a,,b".toList)) :=
  c10_empty_term [] SensitiveTextCriteria.default
    (parse_additional_masks (some (",secret".toList))) none (by decide)

/-- Claim C3 (confirmed): a text annotation whose clamped box is oversized — box width
`max_x - min_x` exceeding half the image width, or box height `max_y - min_y`
exceeding half the image height — is silently skipped: `mask_annotation` returns the
image with every pixel unchanged, and no error. -/
theorem c3_oversized_skip (img : Image) (ann : TextAnn) (r : Rect)
    (hr : r = clampedRect ((ann.bounding_poly.getD ⟨[]⟩).vertices) img.width img.height)
    (hover : r.max_x - r.min_x > img.width / 2 ∨ r.max_y - r.min_y > img.height / 2) :
    mask_ann img ann = img := by
  subst hr
  unfold mask_ann
  by_cases hemp : ((ann.bounding_poly.getD ⟨[]⟩).vertices).isEmpty = true
  · simp only [if_pos hemp]
  · simp only [if_neg hemp, if_pos hover]

/-- Witness for C3: a 10-wide box (0,0)-(9,2) on a 10×10 image is skipped. -/
theorem c3_oversized_skip_witness :
    mask_ann ⟨10, 10, fun _ _ => ⟨1, 2, 3, 4⟩⟩ ⟨"wide".toList, some ⟨[⟨0, 0⟩, ⟨9, 2⟩]⟩⟩ =
      ⟨10, 10, fun _ _ => ⟨1, 2, 3, 4⟩⟩ :=
  c3_oversized_skip ⟨10, 10, fun _ _ => ⟨1, 2, 3, 4⟩⟩ ⟨"wide".toList, some ⟨[⟨0, 0⟩, ⟨9, 2⟩]⟩⟩
    (clampedRect [⟨0, 0⟩, ⟨9, 2⟩] 10 10) rfl (by decide)

/-- Claim C8 (confirmed): with more than one annotation the first is excluded from
classification and never rendered — the run equals a classify-and-render pass over the
tail alone; with exactly one annotation, that annotation is classified and, if
sensitive, rendered. -/
theorem c8_first_element_skip :
    (∀ (img : Image) (a : TextAnn) (rest : List TextAnn)
        (additional_masks : List (List Char)) (gemini : List Char → Option Bool),
      rest ≠ [] →
      mask_text img (a :: rest) additional_masks gemini =
        ((rest.filter (fun b => is_sensitive_text b.description SensitiveTextCriteria.default
            additional_masks (gemini b.description))).foldl mask_ann img,
         (rest.filter (fun b => is_sensitive_text b.description SensitiveTextCriteria.default
            additional_masks (gemini b.description))).length)) ∧
    (∀ (img : Image) (a : TextAnn)
        (additional_masks : List (List Char)) (gemini : List Char → Option Bool),
      mask_text img [a] additional_masks gemini =
        if is_sensitive_text a.description SensitiveTextCriteria.default additional_masks
            (gemini a.description) = true
        then (mask_ann img a, 1) else (img, 0)) := by
  constructor
  · intro img a rest additional_masks gemini hne
    unfold mask_text
    have hlen : (a :: rest).length > 1 := by
      cases rest with
      | nil => exact absurd rfl hne
      | cons b bs => simp [List.length]
    rw [if_pos hlen]
    rfl
  · intro img a additional_masks gemini
    unfold mask_text
    rw [if_neg (by simp)]
    by_cases h : is_sensitive_text a.description SensitiveTextCriteria.default
        additional_masks (gemini a.description) = true
    · rw [if_pos h]
      simp [List.filter, h]
    · rw [if_neg h]
      simp only [List.filter, Bool.not_eq_true] at *
      simp [h]

/-- Witness for C8 at a concrete two-element and one-element run (oracle answers
`false`, no explicit terms, so nothing is sensitive). -/
theorem c8_first_element_skip_witness :
    mask_text c8Img [c8AnnA, c8AnnB] [] (fun _ => some false) =
      (([c8AnnB].filter (fun b => is_sensitive_text b.description
          SensitiveTextCriteria.default [] ((fun _ => some false) b.description))).foldl
          mask_ann c8Img,
       ([c8AnnB].filter (fun b => is_sensitive_text b.description
          SensitiveTextCriteria.default [] ((fun _ => some false) b.description))).length) ∧
    mask_text c8Img [c8AnnA] [] (fun _ => some false) =
      (if is_sensitive_text c8AnnA.description SensitiveTextCriteria.default []
          ((fun _ => some false) c8AnnA.description) = true
       then (mask_ann c8Img c8AnnA, 1) else (c8Img, 0)) :=
  ⟨c8_first_element_skip.1 c8Img c8AnnA [c8AnnB] [] (fun _ => some false)
      (List.cons_ne_nil _ _),
   c8_first_element_skip.2 c8Img c8AnnA [] (fun _ => some false)⟩

/-- Claim C9 (amended): the reported `masked_count` equals the number of annotations
(after the first-element skip) classified sensitive — annotations whose rectangle is
then skipped for an empty bounding polygon or an oversized box are still counted even
though nothing is rendered for them. -/
theorem c9_reported_count (img : Image) (annotations : List TextAnn)
    (additional_masks : List (List Char)) (gemini : List Char → Option Bool) :
    (mask_text img annotations additional_masks gemini).2 =
      ((if annotations.length > 1 then annotations.drop 1 else annotations).filter
        (fun a => is_sensitive_text a.description SensitiveTextCriteria.default
          additional_masks (gemini a.description))).length := rfl

/-- Counterexample to C9 as stated: a single annotation matching an explicit term but
carrying an empty bounding polygon is counted (`masked_count = 1`) although its
rectangle is skipped and not a single pixel is rendered (the image is returned
unchanged). -/
theorem c9_counterexample :
    (mask_text c9Img [c9Ann] ["@".toList] (fun _ => none)).2 = 1 ∧
    (mask_text c9Img [c9Ann] ["@".toList] (fun _ => none)).1 = c9Img :=
  ⟨by decide, rfl⟩

/-- Counterexample to C2 as stated: for the polygon (0,0)-(1,0) on the 2×1 image
`c2Img` — a rectangle well within one block — pixelation leaves the pixel at
`x = max_x = 1` (a pixel of the inclusive rectangle) at its original color, which
differs from the truncated channel means of the rectangle's pixels. -/
theorem c2_counterexample :
    (mask_faces c2Img [⟨some c2Poly⟩]).pix 1 0 = ⟨30, 40, 50, 255⟩ ∧
    specInclusiveMean c2Img (clampedRect c2Poly.vertices c2Img.width c2Img.height) =
      ⟨20, 30, 40, 255⟩ ∧
    ((⟨30, 40, 50, 255⟩ : Rgba) ≠ ⟨20, 30, 40, 255⟩) := by
  refine ⟨by decide, by decide, by decide⟩

theorem loop_zero {σ : Type} (f : Nat → σ → σ) (a : Nat) (s : σ) : loop f a 0 s = s := rfl

theorem loop_succ {σ : Type} (f : Nat → σ → σ) (a n : Nat) (s : σ) :
    loop f a (n + 1) s = loop f (a + 1) n (f a s) := rfl

theorem loop_id {σ : Type} (f : Nat → σ → σ) (hf : ∀ i s, f i s = s) :
    ∀ (m b : Nat) (s : σ), loop f b m s = s := by
  intro m
  induction m with
  | zero => intro b s; rfl
  | succ m ih => intro b s; rw [loop_succ, hf, ih]

/-- Pixel-level description of one fill row of `fillBlock`. -/
theorem fill_row_pix (width height y : Nat) (c : Rgba) :
    ∀ (n a : Nat) (im : Image) (u v : Nat),
      (loop (fun x im2 => if x < width ∧ y < height then put_pixel im2 x y c else im2)
          a n im).pix u v =
        if a ≤ u ∧ u < a + n ∧ u < width ∧ v = y ∧ y < height then c else im.pix u v := by
  intro n
  induction n with
  | zero =>
    intro a im u v
    rw [loop_zero, if_neg]
    rintro ⟨h1, h2, -⟩
    omega
  | succ n ih =>
    intro a im u v
    rw [loop_succ, ih]
    by_cases hb : a < width ∧ y < height
    · rw [if_pos hb]
      have hput : (put_pixel im a y c).pix u v = if u = a ∧ v = y then c else im.pix u v := rfl
      rw [hput]
      split_ifs <;> first | rfl | omega
    · rw [if_neg hb]
      split_ifs <;> first | rfl | omega

/-- Pixel-level description of the row loop of `fillBlock`. -/
theorem fillBlock_pix_aux (width height x0 x1 : Nat) (c : Rgba) (hx : x0 ≤ x1) :
    ∀ (m b : Nat) (im : Image) (u v : Nat),
      (loop (fun y im2 =>
          loop (fun x im3 => if x < width ∧ y < height then put_pixel im3 x y c else im3)
            x0 (x1 - x0) im2) b m im).pix u v =
        if x0 ≤ u ∧ u < x1 ∧ u < width ∧ b ≤ v ∧ v < b + m ∧ v < height then c
        else im.pix u v := by
  intro m
  induction m with
  | zero =>
    intro b im u v
    rw [loop_zero, if_neg]
    rintro ⟨-, -, -, h4, h5, -⟩
    omega
  | succ m ih =>
    intro b im u v
    rw [loop_succ, ih, fill_row_pix width height b c (x1 - x0) x0 im u v]
    have hxx : x0 + (x1 - x0) = x1 := by omega
    rw [hxx]
    split_ifs <;> first | rfl | omega

/-- Pixel-level description of `fillBlock`: every in-bounds pixel of the half-open
region `[x0, x1) × [y0, y1)` becomes `c`; every other pixel is unchanged. -/
theorem fillBlock_pix (width height x0 y0 x1 y1 : Nat) (c : Rgba) (img : Image)
    (u v : Nat) (hx : x0 ≤ x1) :
    (fillBlock width height x0 y0 x1 y1 c img).pix u v =
      if x0 ≤ u ∧ u < x1 ∧ y0 ≤ v ∧ v < y1 ∧ u < width ∧ v < height then c
      else img.pix u v := by
  unfold fillBlock forRange
  rw [fillBlock_pix_aux width height x0 x1 c hx (y1 - y0) y0 img u v]
  split_ifs <;> first | rfl | omega

/-- One summation row of `blockSums` counts one pixel per in-bounds column. -/
theorem blockSums_row_count (img : Image) (width height y : Nat) :
    ∀ (n a : Nat) (s : BlockSums), (∀ i, i < n → a + i < width) → y < height →
      (loop (fun x s2 =>
          if x < width ∧ y < height then
            (⟨s2.r_sum + (img.pix x y).r, s2.g_sum + (img.pix x y).g,
              s2.b_sum + (img.pix x y).b, s2.a_sum + (img.pix x y).a,
              s2.pixel_count + 1⟩ : BlockSums)
          else s2) a n s).pixel_count = s.pixel_count + n := by
  intro n
  induction n with
  | zero => intro a s _ _; rfl
  | succ n ih =>
    intro a s h hy
    rw [loop_succ]
    rw [if_pos ⟨by have := h 0 (by omega); omega, hy⟩]
    rw [ih (a + 1) _ (fun i hi => by have := h (i + 1) (by omega); omega) hy]
    show s.pixel_count + 1 + n = s.pixel_count + (n + 1)
    omega

/-- The summation loops of `blockSums` count one pixel per in-bounds grid point. -/
theorem blockSums_outer_count (img : Image) (width height x0 x1 : Nat) (hx1 : x1 ≤ width) :
    ∀ (m b : Nat) (s : BlockSums), (∀ i, i < m → b + i < height) →
      (loop (fun y s2 =>
          loop (fun x s3 =>
            if x < width ∧ y < height then
              (⟨s3.r_sum + (img.pix x y).r, s3.g_sum + (img.pix x y).g,
                s3.b_sum + (img.pix x y).b, s3.a_sum + (img.pix x y).a,
                s3.pixel_count + 1⟩ : BlockSums)
            else s3) x0 (x1 - x0) s2) b m s).pixel_count =
        s.pixel_count + m * (x1 - x0) := by
  intro m
  induction m with
  | zero => intro b s _; rw [loop_zero]; omega
  | succ m ih =>
    intro b s h
    rw [loop_succ]
    rw [ih (b + 1) _ (fun i hi => by have := h (i + 1) (by omega); omega)]
    rw [blockSums_row_count img width height b (x1 - x0) x0 s (fun i hi => by omega)
      (by have := h 0 (by omega); omega)]
    rw [Nat.succ_mul]
    omega

/-- The pixel count of `blockSums` over a region lying inside the image. -/
theorem blockSums_count (img : Image) (width height x0 y0 x1 y1 : Nat)
    (hx1 : x1 ≤ width) (hy1 : y1 ≤ height) :
    (blockSums img width height x0 y0 x1 y1).pixel_count = (y1 - y0) * (x1 - x0) := by
  unfold blockSums forRange
  rw [blockSums_outer_count img width height x0 x1 hx1 (y1 - y0) y0 ⟨0, 0, 0, 0, 0⟩
    (fun i hi => by omega)]
  exact Nat.zero_add _

/-- The pixel count of `blockSums` over an empty half-open region is zero. -/
theorem blockSums_count_zero (img : Image) (width height x0 y0 x1 y1 : Nat)
    (h : x1 ≤ x0 ∨ y1 ≤ y0) :
    (blockSums img width height x0 y0 x1 y1).pixel_count = 0 := by
  rcases h with h | h
  · unfold blockSums forRange
    rw [show x1 - x0 = 0 from by omega]
    exact congrArg BlockSums.pixel_count
      (loop_id _ (fun i s => rfl) (y1 - y0) y0 ⟨0, 0, 0, 0, 0⟩)
  · unfold blockSums forRange
    rw [show y1 - y0 = 0 from by omega, loop_zero]

/-- Claim C2 (amended): for a non-empty face polygon whose clamped rectangle spans at
most one block per axis (`max_x - min_x ≤ 15` and `max_y - min_y ≤ 15`), pixelation
overwrites exactly the HALF-OPEN region `[min_x, max_x) × [min_y, max_y)`: each such
pixel receives the single color whose channels are the truncated means over that
half-open region's pixels, while every other pixel — in particular the rectangle's
last column `x = max_x` and last row `y = max_y` — keeps its original color. -/
theorem c2_one_block_pixelation (img : Image) (poly : BoundingPoly) (r : Rect)
    (hne : poly.vertices ≠ [])
    (hr : r = clampedRect poly.vertices img.width img.height)
    (hspanx : r.max_x - r.min_x ≤ 15) (hspany : r.max_y - r.min_y ≤ 15)
    (x y : Nat) :
    (mask_faces img [⟨some poly⟩]).pix x y =
      if r.min_x ≤ x ∧ x < r.max_x ∧ r.min_y ≤ y ∧ y < r.max_y then
        block_average img img.width img.height r.min_x r.min_y r.max_x r.max_y
      else img.pix x y := by
  have hmaxx : r.max_x ≤ img.width - 1 := by rw [hr]; exact Nat.min_le_right _ _
  have hmaxy : r.max_y ≤ img.height - 1 := by rw [hr]; exact Nat.min_le_right _ _
  have hE : poly.vertices.isEmpty = false := by
    cases hv : poly.vertices with
    | nil => exact absurd hv hne
    | cons a l => rfl
  have hfold : mask_faces img [⟨some poly⟩] = mask_face_ann img ⟨some poly⟩ := rfl
  rw [hfold]
  unfold mask_face_ann
  dsimp only
  rw [hE]
  rw [if_neg (by simp)]
  rw [← hr]
  rw [show (r.max_x - r.min_x) / pixel_size = 0 from Nat.div_eq_of_lt (by
      have hps : pixel_size = 16 := rfl
      omega)]
  rw [show (r.max_y - r.min_y) / pixel_size = 0 from Nat.div_eq_of_lt (by
      have hps : pixel_size = 16 := rfl
      omega)]
  rw [show Nat.max 0 1 = 1 from rfl]
  show (processBlock img.width img.height r 0 0 img).pix x y = _
  unfold processBlock
  dsimp only
  rw [show r.min_x + 0 * pixel_size = r.min_x from by omega]
  rw [show r.min_y + 0 * pixel_size = r.min_y from by omega]
  rw [show Nat.min (r.min_x + pixel_size) r.max_x = r.max_x from Nat.min_eq_right (by
      have hps : pixel_size = 16 := rfl
      omega)]
  rw [show Nat.min (r.min_y + pixel_size) r.max_y = r.max_y from Nat.min_eq_right (by
      have hps : pixel_size = 16 := rfl
      omega)]
  by_cases hreg : r.min_x < r.max_x ∧ r.min_y < r.max_y
  · rw [blockSums_count img img.width img.height r.min_x r.min_y r.max_x r.max_y
      (by omega) (by omega)]
    rw [if_pos (Nat.mul_pos (by omega) (by omega))]
    rw [fillBlock_pix img.width img.height r.min_x r.min_y r.max_x r.max_y _ img x y
      (by omega)]
    refine if_congr ?_ rfl rfl
    constructor
    · rintro ⟨h1, h2, h3, h4, -, -⟩
      exact ⟨h1, h2, h3, h4⟩
    · rintro ⟨h1, h2, h3, h4⟩
      exact ⟨h1, h2, h3, h4, by omega, by omega⟩
  · rw [blockSums_count_zero img img.width img.height r.min_x r.min_y r.max_x r.max_y
      (by omega)]
    rw [if_neg (by omega)]
    rw [if_neg (by rintro ⟨h1, h2, h3, h4⟩; exact hreg ⟨by omega, by omega⟩)]

/-- Witness for C2 at the concrete 2×1 image: the pixel (0,0) lies outside the
half-open region (`max_y = 0`), so the instantiated conclusion reduces to it being
unchanged. -/
theorem c2_one_block_pixelation_witness :
    (mask_faces c2Img [⟨some c2Poly⟩]).pix 0 0 =
      if (clampedRect c2Poly.vertices c2Img.width c2Img.height).min_x ≤ 0 ∧
          0 < (clampedRect c2Poly.vertices c2Img.width c2Img.height).max_x ∧
          (clampedRect c2Poly.vertices c2Img.width c2Img.height).min_y ≤ 0 ∧
          0 < (clampedRect c2Poly.vertices c2Img.width c2Img.height).max_y then
        block_average c2Img c2Img.width c2Img.height
          (clampedRect c2Poly.vertices c2Img.width c2Img.height).min_x
          (clampedRect c2Poly.vertices c2Img.width c2Img.height).min_y
          (clampedRect c2Poly.vertices c2Img.width c2Img.height).max_x
          (clampedRect c2Poly.vertices c2Img.width c2Img.height).max_y
      else c2Img.pix 0 0 :=
  c2_one_block_pixelation c2Img c2Poly (clampedRect c2Poly.vertices c2Img.width c2Img.height)
    (by decide) rfl (by decide) (by decide) 0 0

end ImgAnon
